import Mathlib

/-!
Shallow embedding of the DeepSearch pipeline
(src/services/WebSearchService.js, DeepSearchOrchestrator.js, LLMService.js,
DatabaseService.js).

Modelling conventions:
* JavaScript strings are modelled by Lean `String` (code points instead of
  UTF-16 units; all claims are about lengths/ordering of ordinary text).
* Machine-level collaborators (the DuckDuckGo HTML endpoint, the page
  fetcher, the WHATWG URL parser, MD5, Unicode NFD accent stripping and the
  LLM endpoints) are oracle fields of an `Env` record; every theorem is
  universally quantified over them.
* `async`/`await` sequencing is direct sequencing; inter-call `sleep`
  delays have no observable effect on the values computed and are dropped.
* Throwing JavaScript code is modelled with `Except String` / `Option`;
  a `catch` branch is a `match` on the corresponding value.
-/

/-- JS `\s` whitespace for the ASCII range (the source only ever feeds it
ordinary text; exotic Unicode space classes are not modelled). -/
def isJsWs (c : Char) : Bool :=
  c == ' ' || c == '\t' || c == '\n' || c == '\r' || c.toNat == 11 || c.toNat == 12

/-- `str.replace(/P+/g, r)` for a character class `p`: every maximal run of
characters satisfying `p` becomes the single character `r`. -/
def collapseRuns (p : Char → Bool) (r : Char) : List Char → Bool → List Char
  | [], _ => []
  | c :: cs, inRun =>
    if p c then
      if inRun then collapseRuns p r cs true else r :: collapseRuns p r cs true
    else c :: collapseRuns p r cs false

/-- JS `String.prototype.trim()`. -/
def jsTrimList (l : List Char) : List Char :=
  ((l.dropWhile isJsWs).reverse.dropWhile isJsWs).reverse

def jsTrim (s : String) : String := String.mk (jsTrimList s.toList)

/-- JS `s.substring(0, n)` (truncation; code-point based here). -/
def jsTake (s : String) (n : Nat) : String := String.mk (s.toList.take n)

/-- JS `a || b` on strings (empty string is falsy). -/
def jsOrStr (a b : String) : String := if a = "" then b else a

/-- `Math.ceil(a / b)` for natural `a` and positive `b`. -/
def jsCeilDiv (a b : Nat) : Nat := (a + b - 1) / b

/-- Numeric value of a digit string. -/
def natOfDigits (l : List Char) : Nat := l.foldl (fun n c => 10 * n + (c.toNat - 48)) 0

/-- Whether a JS object property key is an *array index* (the canonical
decimal representation of an integer in `[0, 2^32 - 2]`).  Such keys are
enumerated first, in ascending numeric order, by `Object.entries`. -/
def isArrayIndexStr (s : String) : Bool :=
  let l := s.toList
  (!l.isEmpty) && l.all (·.isDigit) &&
    (decide (l = ['0']) || decide (l.head? ≠ some '0')) &&
    decide (natOfDigits l ≤ 4294967294)

/-- `Set.prototype.add` on an insertion-ordered string set. -/
def jsSetInsert (l : List String) (s : String) : List String :=
  if l.contains s then l else l ++ [s]

/-- A quote character, `"` or `'` (code point 39). -/
def isQuoteChar (c : Char) : Bool := c == '"' || c.toNat == 39

/-- Number of maximal runs of characters satisfying `p`. -/
def countRunsP (p : Char → Bool) : List Char → Bool → Nat
  | [], _ => 0
  | c :: t, inRun =>
    if p c then (if inRun then countRunsP p t true else 1 + countRunsP p t true)
    else countRunsP p t false

/-- `content.split(/\s+/).length`: one more than the number of maximal
whitespace runs (JS keeps empty leading/trailing fields for this regex). -/
def jsSplitWsCount (s : String) : Nat := 1 + countRunsP isJsWs s.toList false

/-- Scanner state for the global regex `/["']([^"']+)["']/g`: `none`
outside a candidate match, `some (q, run)` after an opening quote `q` with
the (reversed) run of non-quote characters read so far.  A quote read on an
empty run restarts the candidate there (the regex needs at least one
enclosed character); a quote read on a non-empty run closes a match. -/
def quotedScanAux : List Char → Option (Char × List Char) → List String
  | [], _ => []
  | c :: cs, none =>
    if isQuoteChar c then quotedScanAux cs (some (c, [])) else quotedScanAux cs none
  | c :: cs, some (q, run) =>
    if isQuoteChar c then
      if run.isEmpty then quotedScanAux cs (some (c, []))
      else String.mk (q :: (run.reverse ++ [c])) :: quotedScanAux cs none
    else quotedScanAux cs (some (q, c :: run))

/-- All matches of the global regex `/["']([^"']+)["']/g`: leftmost,
non-overlapping, a quote followed by one or more non-quote characters and a
closing quote (of either kind). -/
def quotedMatches (l : List Char) : List String := quotedScanAux l none

/-- The greedy regex `response.match(/\{[\s\S]*\}/)`: the substring from the
first opening brace through the last closing brace, when both exist in that
order. -/
def jsonBlock (s : String) : Option String :=
  let t := s.toList.dropWhile (· ≠ '{')
  let r := t.reverse.dropWhile (· ≠ '}')
  if r.isEmpty then none else some (String.mk r.reverse)

/-- JS `word.charAt(0).toUpperCase() + word.slice(1).toLowerCase()`. -/
def capWord (w : String) : String :=
  match w.toList with
  | [] => ""
  | c :: rest => String.mk (c.toUpper :: rest.map Char.toLower)

/-- ASCII lower-casing (`query.toLowerCase()`). -/
def jsToLower (s : String) : String := String.mk (s.toList.map Char.toLower)

/-- Generic first-occurrence deduplication keyed by a string: the loop
`if (!seen.has(key(x))) { seen.add(key(x)); out.push(x) }`. -/
def dedupAux {α : Type} (key : α → String) (seen : List String) : List α → List α
  | [] => []
  | x :: t =>
    if seen.contains (key x) then dedupAux key seen t
    else x :: dedupAux key (key x :: seen) t

def dedupByKey {α : Type} (key : α → String) (l : List α) : List α := dedupAux key [] l

/-- First occurrences of the distinct strings of a list, in input order
(the insertion order of non-index keys of a JS object built by the counting
loop of `getTopItems`). -/
def firstSeen (items : List String) : List String := dedupByKey id items

/-- The sibling of `dedupAux` that returns the final `seen` set. -/
def seenAfter {α : Type} (key : α → String) (seen : List String) : List α → List String
  | [] => seen
  | x :: t =>
    if seen.contains (key x) then seenAfter key seen t
    else seenAfter key (key x :: seen) t

/-! ### Data model -/

/-- One organic `.result` block of the DuckDuckGo HTML page, as seen by
`parseDuckDuckGoResults` (title text already `.trim()`ed, the `href`
attribute when present, snippet text). -/
structure RawBlock where
  title : String
  href : Option String
  snippet : String
deriving DecidableEq, Repr

/-- A parsed search hit (SearchHit of the spec). -/
structure SearchHit where
  title : String
  url : String
  snippet : String
  source : String
  searchTerm : Option String := none
  dork : Option String := none
deriving DecidableEq, Repr

/-- One provider call issued by `searchDuckDuckGo` (query string and the
`maxResults` budget passed with it). -/
structure ProviderCall where
  query : String
  maxResults : Nat
deriving DecidableEq, Repr

/-- A fetched HTML page as consumed by `scrapePage` after cheerio parsing
and removal of script/style/nav/footer/header/aside/ad elements:
`<title>` text, the description meta attribute when present, the text of
each content selector that matches, and the body text. -/
structure Page where
  title : String
  metaDescription : Option String
  selectorText : String → Option String
  bodyText : String

/-- ScrapedSource of the spec (the record built at the end of
`scrapePage`; `scrapedAt` is wall-clock time and is not modelled). -/
structure ScrapedSource where
  url : String
  title : String
  description : String
  content : String
  domain : String
  searchTerm : Option String
  wordCount : Nat
  contentLength : Nat
deriving DecidableEq, Repr

/-- SourceAnalysis: the JSON object produced by `analyzeWebContent`.
Scores are JS numbers; they are modelled as integers (the claims consider
only real-valued scores). -/
structure Analysis where
  relevance_score : Int
  key_points : List String
  summary : String
  insights : List String
  credibility_score : Int
  topics : List String
deriving DecidableEq, Repr

/-- The term-expansion result of `generateSearchTerms`. -/
structure TermsData where
  original_query : String
  search_terms : List String
  categories : List String
deriving DecidableEq, Repr

/-- A row of the `embeddings_cache` table as returned by
`getCachedEmbedding` (`embedding` is `none` for a SQL NULL). -/
structure CacheEntry where
  embedding : Option (List Int)
  model_used : String
deriving DecidableEq, Repr

/-- Session metadata fields the pipeline writes (timestamps are wall-clock
and not modelled; the echoed `options` object is omitted). -/
structure SessionMeta where
  error : Option String := none
  sourcesFound : Option Nat := none
  reportGenerated : Option Bool := none
deriving DecidableEq, Repr

/-- A freshly created search session row. -/
structure Session where
  id : Nat
  metadata : SessionMeta := {}
deriving DecidableEq, Repr

/-- A session row after its final `updateSearchSession`. -/
structure SessionFinal where
  id : Nat
  status : String
  metadata : SessionMeta
deriving DecidableEq, Repr

/-- The statistics record computed by `getSearchStats`.
`averageContentLength` is `none` when `results` is empty (the JS code
produces `NaN` there). -/
structure Stats where
  totalResults : Nat
  domains : List (String × Nat)
  averageContentLength : Option Nat
  totalWords : Nat
  topDomains : List (String × Nat)
deriving DecidableEq, Repr

/-- The environment of external collaborators and configuration
(`config/default.js` values and every network/storage oracle). -/
structure Env where
  /-- DuckDuckGo: the organic result blocks of the HTML page for a query
  issued with a given `maxResults` parameter, or a transport error. -/
  provider : String → Nat → Except String (List RawBlock)
  /-- `normalizeUrl`: redirect unwrapping plus WHATWG canonicalization. -/
  normUrl : String → String
  /-- `new URL(u).hostname`; `none` when the URL fails to parse. -/
  urlHost : String → Option String
  /-- One page GET by the scrape client (already subsumes the
  status `< 400` check, redirect cap and empty-response throw). -/
  fetch : String → Except String Page
  blockedDomains : List String
  allowedDomains : List String
  /-- `config.search.maxResults` (default 50). -/
  cfgMaxResults : Nat
  /-- `config.search.maxConcurrentScrapes` (default 5). -/
  maxConcurrentScrapes : Nat
  /-- `config.performance.maxContentLength`. -/
  maxContentLength : Nat
  /-- `config.performance.parallelProcessingLimit` (default 5). -/
  parallelProcessingLimit : Nat
  /-- `crypto.createHash('md5')` fingerprint of a text. -/
  md5 : String → String
  /-- LLM text response for the term-expansion prompt of a query. -/
  termsResponse : String → Except String String
  /-- `JSON.parse` of an extracted JSON block against the term schema;
  `none` models a parse exception. -/
  termsParse : String → Option TermsData
  /-- LLM text response for the content-analysis prompt (content, query). -/
  analyzeResponse : String → String → Except String String
  /-- `JSON.parse` of an extracted JSON block against the analysis schema. -/
  analysisParse : String → Option Analysis
  /-- The embedding endpoint: vector and model identifier for a text. -/
  embed : String → Except String (List Int × String)
  /-- `getCachedEmbedding` by content hash (state of the cache table). -/
  cacheLookup : String → Option CacheEntry
  /-- LLM text response for the final-report prompt of a query (the prompt
  also embeds the consolidated analysis, which the claims never vary). -/
  reportResponse : String → Except String String
  /-- `createSearchSession` outcome. -/
  createSession : Except String Session
  /-- `new Date().toISOString()` at report time. -/
  nowIso : String
  /-- Unicode NFD normalization with combining marks removed. -/
  stripAccents : String → String

/-! ### Query Engine (WebSearchService search half) -/

/-- `parseDuckDuckGoResults`: keep each organic block whose title and href
are truthy, normalizing the link. -/
def parseDuckDuckGoResults (env : Env) (blocks : List RawBlock) : List SearchHit :=
  blocks.filterMap fun b =>
    match b.href with
    | some u =>
      if b.title ≠ "" ∧ u ≠ "" then
        some { title := b.title, url := env.normUrl u, snippet := b.snippet,
               source := "duckduckgo" }
      else none
    | none => none

/-- `searchDuckDuckGo`: one provider query; an empty hit list on transport
error, otherwise the parsed hits capped to `maxResults`.  The second
component records the single provider call issued. -/
def searchDuckDuckGo (env : Env) (query : String) (maxResults : Nat) :
    List SearchHit × List ProviderCall :=
  (match env.provider query maxResults with
   | .error _ => []
   | .ok blocks => (parseDuckDuckGoResults env blocks).take maxResults,
   [{ query := query, maxResults := maxResults }])

/-- The inner dedup loop of `multiSearch`: push each hit whose URL has not
been seen, remembering its URL. -/
def addUnique (seen : List String) : List SearchHit → List SearchHit × List String
  | [] => ([], seen)
  | h :: t =>
    if seen.contains h.url then addUnique seen t
    else
      let (r, s) := addUnique (h.url :: seen) t
      (h :: r, s)

/-- The term loop of `multiSearch`: search each term, tag hits with the
originating term, and keep first occurrences by URL across the whole loop. -/
def multiSearchLoop (env : Env) (maxResults : Nat) (seen : List String) :
    List String → List SearchHit × List ProviderCall
  | [] => ([], [])
  | term :: ts =>
    let (hits, call) := searchDuckDuckGo env term maxResults
    let tagged := hits.map fun r => { r with searchTerm := some term }
    let (kept, seen2) := addUnique seen tagged
    let (rest, calls) := multiSearchLoop env maxResults seen2 ts
    (kept ++ rest, call ++ calls)

/-- `multiSearch(searchTerms, { maxResults })`. -/
def multiSearch (env : Env) (terms : List String) (maxResults : Nat) :
    List SearchHit × List ProviderCall :=
  multiSearchLoop env maxResults [] terms

/-- The fixed literal dork list of `searchWithDorks`. -/
def dorkList (q : String) : List String :=
  ["\"" ++ q ++ "\"",
   q ++ " filetype:pdf",
   q ++ " site:wikipedia.org",
   q ++ " site:edu",
   q ++ " site:org",
   q ++ " inurl:blog",
   q ++ " intitle:\"" ++ q ++ "\""]

/-- The dork loop: one provider call per dork with a per-call budget of
`Math.ceil(this.maxResults / dorks.length)`, hits tagged with the dork and
the base query, all results concatenated (deduplication happens after). -/
def dorkLoop (env : Env) (perDork : Nat) (baseQuery : String) :
    List String → List SearchHit × List ProviderCall
  | [] => ([], [])
  | d :: ds =>
    let (hits, call) := searchDuckDuckGo env d perDork
    let tagged := hits.map fun r => { r with dork := some d, searchTerm := some baseQuery }
    let (rest, calls) := dorkLoop env perDork baseQuery ds
    (tagged ++ rest, call ++ calls)

/-- `searchWithDorks(baseQuery, options)`.  Note that the `maxResults`
passed in `options` is overridden inside the loop by
`Math.ceil(this.maxResults / dorks.length)`, which uses the *service
configuration* value, so the parameter is unused. -/
def searchWithDorks (env : Env) (baseQuery : String) (_optionsMaxResults : Nat) :
    List SearchHit × List ProviderCall :=
  let dorks := dorkList baseQuery
  let perDork := jsCeilDiv env.cfgMaxResults dorks.length
  let (allResults, calls) := dorkLoop env perDork baseQuery dorks
  (dedupByKey (·.url) allResults, calls)

/-- The retrieval half of `DeepSearchOrchestrator.performWebSearch`: the
merged hit list handed to scraping, together with the provider calls
issued.  With advanced search the dork results for the first term
(`searchTerms[0]`; runs always have at least one term) are concatenated
with the `multiSearch` results for the remaining terms. -/
def performWebSearchHits (env : Env) (searchTerms : List String) (maxResults : Nat)
    (useAdvancedSearch : Bool) : List SearchHit × List ProviderCall :=
  if useAdvancedSearch then
    let primaryTerm := searchTerms.headD ""
    let (dorkResults, dorkCalls) := searchWithDorks env primaryTerm (jsCeilDiv maxResults 2)
    let otherTerms := searchTerms.tail
    let (normalResults, normalCalls) :=
      if otherTerms.length > 0 then multiSearch env otherTerms (jsCeilDiv maxResults 2)
      else ([], [])
    (dorkResults ++ normalResults, dorkCalls ++ normalCalls)
  else
    multiSearch env searchTerms maxResults

/-! ### Domain filtering (`isAllowedDomain`) -/

/-- A compiled token of the regex obtained from a blocked/allowed pattern by
`pattern.replace(/\*/g, '.*')`: `*` becomes `.*`, a literal `.` of the
pattern is the regex wildcard dot, anything else matches itself. -/
inductive Tok where
  | lit (c : Char)
  | anyChar
  | anySeq
deriving DecidableEq, Repr

def globToTokens (pat : String) : List Tok :=
  pat.toList.map fun c =>
    if c = '*' then Tok.anySeq else if c = '.' then Tok.anyChar else Tok.lit c

/-- Full-match semantics of such a token list: `.*` (anySeq) consumes an
arbitrary prefix, i.e. the rest of the tokens must match some suffix. -/
def tokMatch : List Tok → List Char → Bool
  | [], ds => ds.isEmpty
  | Tok.lit c :: ts, ds =>
    match ds with
    | [] => false
    | d :: ds2 => c == d && tokMatch ts ds2
  | Tok.anyChar :: ts, ds =>
    match ds with
    | [] => false
    | _ :: ds2 => tokMatch ts ds2
  | Tok.anySeq :: ts, ds => ds.tails.any fun suf => tokMatch ts suf

/-- `new RegExp(pattern.replace(/\*/g, '.*')).test(s)`: an unanchored
search, i.e. a full match of `.*pattern.*`. -/
def regexTest (pat : String) (s : String) : Bool :=
  tokMatch (Tok.anySeq :: (globToTokens pat ++ [Tok.anySeq])) s.toList

/-- One pattern test as used for both blocked and allowed domain lists:
regex search when the pattern contains `*`, substring containment
(`domain.includes(pattern)`) otherwise. -/
def matchesPattern (domain pat : String) : Bool :=
  if pat.toList.contains '*' then regexTest pat domain
  else decide (pat.toList <:+: domain.toList)

/-- `isAllowedDomain(url)`: `false` when the URL does not parse, when a
blocked pattern matches the hostname, or when no allowed pattern matches
(an allowed list containing `"*"` admits everything). -/
def isAllowedDomain (env : Env) (url : String) : Bool :=
  match env.urlHost url with
  | none => false
  | some domain =>
    if env.blockedDomains.any fun pat => matchesPattern domain pat then false
    else if env.allowedDomains.contains "*" then true
    else env.allowedDomains.any fun pat => matchesPattern domain pat

/-! ### Content Fetcher (`scrapePage` and helpers) -/

/-- `cleanContent`: collapse whitespace runs to single spaces, collapse
newline runs (a no-op after the first stage), collapse non-newline
whitespace runs (likewise a no-op), and trim. -/
def cleanContent (s : String) : String :=
  let st1 := collapseRuns isJsWs ' ' s.toList false
  let st2 := collapseRuns (· == '\n') '\n' st1 false
  let st3 := collapseRuns (fun c => isJsWs c && c != '\n') ' ' st2 false
  String.mk (jsTrimList st3)

/-- The priority-ordered content selectors of `scrapePage`. -/
def contentSelectors : List String :=
  ["article", "[role=\"main\"]", ".content", ".post-content", ".entry-content",
   "main", "#content", ".main-content"]

/-- The selector loop plus body fallback: keep the longest selector text
(strictly longer than the current candidate), and fall back to the body
text when the winner is empty or shorter than 100 characters. -/
def extractRawContent (page : Page) : String :=
  let fromSelectors := contentSelectors.foldl
    (fun acc sel =>
      match page.selectorText sel with
      | some t => if t.length > acc.length then t else acc
      | none => acc) ""
  if fromSelectors = "" ∨ fromSelectors.length < 100 then page.bodyText
  else fromSelectors

/-- `scrapePage(urlInfo)`: `none` for a blocked domain, a failed fetch, or
cleaned content shorter than 100 characters; otherwise the ScrapedSource
record (title capped at 500, description at 1000, content at
`config.performance.maxContentLength`). -/
def scrapePage (env : Env) (urlInfo : SearchHit) : Option ScrapedSource :=
  if ¬ isAllowedDomain env urlInfo.url then none
  else
    match env.fetch urlInfo.url with
    | .error _ => none
    | .ok page =>
      let title := jsOrStr (jsTrim page.title) (jsOrStr urlInfo.title "")
      let description := page.metaDescription.getD ""
      let content := cleanContent (extractRawContent page)
      if content.length < 100 then none
      else
        match env.urlHost urlInfo.url with
        | none => none
        | some domain =>
          some { url := urlInfo.url,
                 title := jsTake title 500,
                 description := jsTake description 1000,
                 content := jsTake content env.maxContentLength,
                 domain := domain,
                 searchTerm := urlInfo.searchTerm,
                 wordCount := jsSplitWsCount content,
                 contentLength := content.length }

/-- Fueled worker for `chunkArray`; the fuel is the input length, which
bounds the number of chunks for a positive chunk size. -/
def chunkArrayGo {α : Type} : Nat → List α → Nat → List (List α)
  | _, [], _ => []
  | 0, _ :: _, _ => []
  | _ + 1, _ :: _, 0 => []
  | fuel + 1, x :: xs, n + 1 =>
    (x :: xs).take (n + 1) :: chunkArrayGo fuel ((x :: xs).drop (n + 1)) (n + 1)

/-- `chunkArray(array, chunkSize)` (the shared utility of both services;
`chunkSize = 0` would not terminate in JS and yields `[]` here). -/
def chunkArray {α : Type} (l : List α) (n : Nat) : List (List α) :=
  chunkArrayGo l.length l n

/-- `scrapeContent(urls)`: scrape each chunk, drop per-URL failures
(`null`s), concatenate chunk results. -/
def scrapeContent (env : Env) (hits : List SearchHit) : List ScrapedSource :=
  (chunkArray hits env.maxConcurrentScrapes).foldl
    (fun results chunk => results ++ (chunk.map (scrapePage env)).filterMap id) []

/-! ### Frequency counting (`getTopItems`, stats domains) -/

/-- Property names of `Object.prototype`.  Items equal to one of these
collide with inherited properties of the plain-object counter used by
`getTopItems`/`getSearchStats` and corrupt the count (`__proto__`
assignments are silently ignored, the others coerce to strings); the
embedding does not model that corruption, and theorems about counting
exclude such items. -/
def protoNames : List String :=
  ["__proto__", "constructor", "toString", "toLocaleString", "valueOf",
   "hasOwnProperty", "isPrototypeOf", "propertyIsEnumerable",
   "__defineGetter__", "__defineSetter__", "__lookupGetter__", "__lookupSetter__"]

/-- Stable ascending sort of distinct array-index keys by numeric value
(the enumeration order `Object.entries` uses for them). -/
def numericAsc (a b : String) : Prop := natOfDigits a.toList ≤ natOfDigits b.toList

instance : DecidableRel numericAsc := fun a b => by
  unfold numericAsc; infer_instance

instance : IsTotal String numericAsc :=
  ⟨fun a b => Nat.le_total (natOfDigits a.toList) (natOfDigits b.toList)⟩

instance : IsTrans String numericAsc :=
  ⟨fun _ _ _ h1 h2 => Nat.le_trans h1 h2⟩

/-- `Object.entries` of the object built by the counting loop
`items.forEach(item => { itemCounts[item] = (itemCounts[item] || 0) + 1 })`:
array-index keys first in ascending numeric order, then the other keys in
insertion (first-seen) order, each paired with its occurrence count. -/
def jsObjectCountEntries (items : List String) : List (String × Nat) :=
  let keys := firstSeen items
  let idxKeys := List.insertionSort numericAsc (keys.filter isArrayIndexStr)
  let strKeys := keys.filter fun k => !isArrayIndexStr k
  (idxKeys ++ strKeys).map fun k => (k, items.count k)

/-- The comparator `([,a],[,b]) => b - a` as a total preorder: an entry
sorts before another when its count is at least as large.  `Array.sort` is
specified to be stable, so it is modelled by insertion sort, which is
stable for this relation. -/
def countGe (a b : String × Nat) : Prop := b.2 ≤ a.2

instance : DecidableRel countGe := fun a b => by
  unfold countGe; infer_instance

instance : IsTotal (String × Nat) countGe := ⟨fun a b => Nat.le_total b.2 a.2⟩

instance : IsTrans (String × Nat) countGe := ⟨fun _ _ _ h1 h2 => Nat.le_trans h2 h1⟩

/-- `getTopItems(items, limit)`: count occurrences in a plain object, sort
the entries by descending count (stable), keep the first `limit`. -/
def getTopItems (items : List String) (limit : Nat) : List (String × Nat) :=
  (List.insertionSort countGe (jsObjectCountEntries items)).take limit

/-! ### Search statistics (`getSearchStats`) -/

/-- `Math.round(totalContentLength / results.length)` on naturals:
`⌊total / n + 1/2⌋`; `none` models the `NaN` produced for an empty result
list. -/
def jsRoundDiv (total n : Nat) : Option Nat :=
  if n = 0 then none else some ((2 * total + n) / (2 * n))

/-- `getSearchStats(results)`. -/
def getSearchStats (results : List ScrapedSource) : Stats :=
  let domainEntries := jsObjectCountEntries (results.map fun r => jsOrStr r.domain "unknown")
  let totalContentLength :=
    results.foldl (fun acc r => acc + (if r.contentLength ≠ 0 then r.contentLength else 0)) 0
  let totalWords :=
    results.foldl (fun acc r => acc + (if r.wordCount ≠ 0 then r.wordCount else 0)) 0
  { totalResults := results.length,
    domains := domainEntries,
    averageContentLength := jsRoundDiv totalContentLength results.length,
    totalWords := totalWords,
    topDomains := (List.insertionSort countGe domainEntries).take 10 }

/-- The value returned by `DeepSearchOrchestrator.performWebSearch`. -/
structure WebResults where
  searchTerms : List String
  sources : List ScrapedSource
  stats : Stats
deriving DecidableEq, Repr

/-- `performWebSearch` in full: merged hits, scraping, statistics. -/
def performWebSearchFull (env : Env) (searchTerms : List String) (maxResults : Nat)
    (useAdvancedSearch : Bool) : WebResults :=
  let (hits, _calls) := performWebSearchHits env searchTerms maxResults useAdvancedSearch
  let sources := scrapeContent env hits
  { searchTerms := searchTerms, sources := sources, stats := getSearchStats sources }

/-! ### Analysis Service adapters (LLMService) -/

/-- The hardcoded fallback expansion `{ original_query, [query], ['geral'] }`. -/
def fallbackTerms (query : String) : TermsData :=
  { original_query := query, search_terms := [query], categories := ["geral"] }

/-- `extractSearchTermsFallback(query, response)`: a set seeded with the
query; every quoted substring of the response, with quote characters
stripped and trimmed, of length strictly between 2 and 50, is added; the
first ten entries survive. -/
def extractSearchTermsFallback (query response : String) : TermsData :=
  let terms := (quotedMatches response.toList).foldl
    (fun acc m =>
      let t := jsTrim (String.mk (m.toList.filter fun c => !isQuoteChar c))
      if t.length > 2 ∧ t.length < 50 then jsSetInsert acc t else acc)
    [query]
  { original_query := query, search_terms := terms.take 10, categories := ["geral"] }

/-- `LLMService.generateSearchTerms(query)`: parse the first JSON block of
the response; a response error or a JSON parse exception lands in the
`catch` with the hardcoded fallback; a response without a JSON block goes
through `extractSearchTermsFallback`. -/
def generateSearchTermsLLM (env : Env) (query : String) : TermsData :=
  match env.termsResponse query with
  | .error _ => fallbackTerms query
  | .ok text =>
    match jsonBlock text with
    | some j =>
      match env.termsParse j with
      | some d => d
      | none => fallbackTerms query
    | none => extractSearchTermsFallback query text

/-- `DeepSearchOrchestrator.generateSearchTerms`: its own `catch` would
return the same fallback, but `generateSearchTermsLLM` never throws. -/
def generateSearchTermsO (env : Env) (query : String) : TermsData :=
  generateSearchTermsLLM env query

/-- The hardcoded fallback analysis of `analyzeWebContent`. -/
def fallbackAnalysis (content : String) : Analysis :=
  { relevance_score := 50,
    key_points := ["Conteúdo disponível para análise"],
    summary := jsTake content 500 ++ "...",
    insights := [],
    credibility_score := 50,
    topics := ["geral"] }

/-- `analyzeWebContent(content, query)`: parse the first JSON block of the
response; any error (response, missing block — the explicit
`Resposta inválida` throw — or parse exception) lands in the `catch` with
the fallback analysis. -/
def analyzeWebContent (env : Env) (content query : String) : Analysis :=
  match env.analyzeResponse content query with
  | .error _ => fallbackAnalysis content
  | .ok text =>
    match jsonBlock text with
    | some j =>
      match env.analysisParse j with
      | some a => a
      | none => fallbackAnalysis content
    | none => fallbackAnalysis content

/-! ### Source Analyzer (`analyzeSingleSource`, `analyzeContent`) -/

/-- One upsert into the embeddings cache:
(hash, preview, vector, model). -/
structure CacheWrite where
  contentHash : String
  contentPreview : String
  embedding : List Int
  modelUsed : String
deriving DecidableEq, Repr

/-- Observable effects of one `analyzeSingleSource` run: which cache keys
were looked up, how many embedding-model calls were made, which cache
upserts happened, and the embedding value passed to `saveWebSource`. -/
structure SourceLog where
  lookups : List String
  embedCalls : Nat
  cacheWrites : List CacheWrite
  embeddingUsed : Option (List Int)
deriving DecidableEq, Repr

/-- The per-source analysis record returned to `analyzeContent`
(`processingTime` is wall-clock and not modelled; the `embedding` field of
the JS record is a log-truncated preview of the vector). -/
structure AnalysisRec where
  source : ScrapedSource
  analysis : Analysis
  embeddingPreview : Option (List Int)
deriving DecidableEq, Repr

/-- `analyzeSingleSource(query, source, options)`.  The embedding branch
runs only when embeddings were requested and `relevance_score > 30`; the
cache key is the MD5 of title + separator + content truncated to 8000
characters; a cached vector short-circuits the model call; an embedding
failure is non-fatal. -/
def analyzeSingleSource (env : Env) (query : String) (source : ScrapedSource)
    (generateEmbeddings : Bool) (_sessionId : Option Nat) :
    Option AnalysisRec × SourceLog :=
  let analysis := analyzeWebContent env source.content query
  let (embedding, log) :=
    if generateEmbeddings ∧ analysis.relevance_score > 30 then
      let contentForEmbedding := jsTake (source.title ++ "\n\n" ++ source.content) 8000
      let contentHash := env.md5 contentForEmbedding
      match env.cacheLookup contentHash with
      | some cached =>
        match cached.embedding with
        | some v =>
          (some v, { lookups := [contentHash], embedCalls := 0, cacheWrites := [],
                     embeddingUsed := some v })
        | none =>
          match env.embed contentForEmbedding with
          | .ok (vec, model) =>
            (some vec,
             { lookups := [contentHash], embedCalls := 1,
               cacheWrites := [{ contentHash := contentHash,
                                 contentPreview := jsTake contentForEmbedding 500,
                                 embedding := vec, modelUsed := model }],
               embeddingUsed := some vec })
          | .error _ =>
            (none, { lookups := [contentHash], embedCalls := 1, cacheWrites := [],
                     embeddingUsed := none })
      | none =>
        match env.embed contentForEmbedding with
        | .ok (vec, model) =>
          (some vec,
           { lookups := [contentHash], embedCalls := 1,
             cacheWrites := [{ contentHash := contentHash,
                               contentPreview := jsTake contentForEmbedding 500,
                               embedding := vec, modelUsed := model }],
             embeddingUsed := some vec })
        | .error _ =>
          (none, { lookups := [contentHash], embedCalls := 1, cacheWrites := [],
                   embeddingUsed := none })
    else
      (none, { lookups := [], embedCalls := 0, cacheWrites := [], embeddingUsed := none })
  (some { source := source, analysis := analysis,
          embeddingPreview := embedding.map (·.take 10) },
   log)

/-- One entry of the `sources` list of the consolidated summary. -/
structure SourceBrief where
  url : String
  domain : String
  title : String
  relevance : Int
  credibility : Int
  summary : String
deriving DecidableEq, Repr

/-- ConsolidatedSynthesis: the `summaryData` object of
`consolidateAnalyses`. -/
structure Summary where
  query : String
  totalSources : Nat
  highRelevanceSources : Nat
  mediumRelevanceSources : Nat
  lowRelevanceSources : Nat
  topKeyPoints : List (String × Nat)
  topInsights : List (String × Nat)
  topTopics : List (String × Nat)
  sources : List SourceBrief
deriving DecidableEq, Repr

/-- `consolidateAnalyses(query, analyses)`: relevance-tier counts, the
flattened per-source briefs, and the top-10 frequency-ranked key points,
insights and topics. -/
def consolidateAnalyses (query : String) (analyses : List AnalysisRec) : Summary :=
  { query := query,
    totalSources := analyses.length,
    highRelevanceSources :=
      (analyses.filter fun a => decide (a.analysis.relevance_score ≥ 70)).length,
    mediumRelevanceSources :=
      (analyses.filter fun a =>
        decide (a.analysis.relevance_score ≥ 40) &&
        decide (a.analysis.relevance_score < 70)).length,
    lowRelevanceSources :=
      (analyses.filter fun a => decide (a.analysis.relevance_score < 40)).length,
    topKeyPoints := getTopItems (analyses.flatMap fun a => a.analysis.key_points) 10,
    topInsights := getTopItems (analyses.flatMap fun a => a.analysis.insights) 10,
    topTopics := getTopItems (analyses.flatMap fun a => a.analysis.topics) 10,
    sources := analyses.map fun a =>
      { url := a.source.url, domain := a.source.domain, title := a.source.title,
        relevance := a.analysis.relevance_score,
        credibility := a.analysis.credibility_score,
        summary := a.analysis.summary } }

/-- The value returned by `analyzeContent`. -/
structure AnalysisPhase where
  individualAnalyses : List AnalysisRec
  consolidatedAnalysis : Summary
  totalSources : Nat
  successfulAnalyses : Nat
deriving DecidableEq, Repr

/-- `analyzeContent(query, webResults, options)`: analyze sources in
batches of `config.performance.parallelProcessingLimit`, drop `null`s,
consolidate. -/
def analyzeContent (env : Env) (query : String) (webResults : WebResults)
    (generateEmbeddings : Bool) (sessionId : Option Nat) : AnalysisPhase :=
  let batches := chunkArray webResults.sources env.parallelProcessingLimit
  let analyses := batches.foldl
    (fun acc batch =>
      acc ++ (batch.map fun s =>
        (analyzeSingleSource env query s generateEmbeddings sessionId).1).filterMap id)
    []
  { individualAnalyses := analyses,
    consolidatedAnalysis := consolidateAnalyses query analyses,
    totalSources := webResults.sources.length,
    successfulAnalyses := analyses.length }

/-! ### Report Synthesizer and run orchestration -/

/-- `generateReportTitle(query)`: first eight space-separated words,
capitalized. -/
def generateReportTitle (query : String) : String :=
  String.intercalate " " (((query.splitOn " ").take 8).map capWord)

/-- The report filename: a compacted timestamp prefix and a slug of the
query (lower-cased, accents stripped, non-alphanumerics removed,
whitespace runs replaced by underscores, capped at 50). -/
def mkFilename (env : Env) (query : String) : String :=
  let timestamp := String.mk ((jsTake env.nowIso 16).toList.filter
    fun c => ¬ (c = ':' ∨ c = '-' ∨ c = 'T'))
  let lowered := env.stripAccents (jsToLower query)
  let kept := lowered.toList.filter fun c => ('a' ≤ c ∧ c ≤ 'z') ∨ c.isDigit ∨ isJsWs c
  let slug := jsTake (String.mk (collapseRuns isJsWs '_' kept false)) 50
  timestamp ++ "_" ++ slug ++ ".md"

/-- The Report record (`filepath` is the configured reports directory
joined with `filename` and adds nothing observable). -/
structure Report where
  title : String
  content : String
  filename : String
  query : String
  sourceCount : Nat
  successfulAnalyses : Nat
deriving DecidableEq, Repr

/-- The value returned by a successful `performDeepSearch`. -/
structure RunResult where
  sessionId : Option Nat
  query : String
  searchTerms : TermsData
  webResults : WebResults
  analysis : AnalysisPhase
  report : Report
deriving DecidableEq, Repr

/-- The run after session creation: term generation, web search, analysis,
report.  A report failure (`generateFinalReport` wraps the cause as
`Erro ao gerar relatório: …` and `generateReport` re-throws it) is caught
by `performDeepSearch`, which marks the session `error` with the message in
its metadata and re-raises; on success the session is marked `completed`.
Session-store writes themselves are modelled as succeeding. -/
def performDeepSearchWith (env : Env) (query : String) (useAdvancedSearch : Bool)
    (generateEmbeddings : Bool) (maxSources : Nat) (session : Option Session) :
    Except String RunResult × Option SessionFinal :=
  let termsData := generateSearchTermsO env query
  let webResults := performWebSearchFull env termsData.search_terms maxSources useAdvancedSearch
  let analysis := analyzeContent env query webResults generateEmbeddings (session.map (·.id))
  match env.reportResponse query with
  | .error e =>
    let msg := "Erro ao gerar relatório: " ++ e
    (.error msg,
     session.map fun s =>
       { id := s.id, status := "error", metadata := { s.metadata with error := some msg } })
  | .ok reportContent =>
    let report : Report :=
      { title := generateReportTitle query, content := reportContent,
        filename := mkFilename env query, query := query,
        sourceCount := analysis.totalSources,
        successfulAnalyses := analysis.successfulAnalyses }
    (.ok { sessionId := session.map (·.id), query := query, searchTerms := termsData,
           webResults := webResults, analysis := analysis, report := report },
     session.map fun s =>
       { id := s.id, status := "completed",
         metadata := { s.metadata with
                       sourcesFound := some webResults.sources.length,
                       reportGenerated := some true } })

/-- `performDeepSearch(query, options)`: create the session when
`saveToDatabase` is set (a creation failure propagates with no session to
mark), then run the pipeline. -/
def performDeepSearch (env : Env) (query : String) (useAdvancedSearch : Bool)
    (generateEmbeddings : Bool) (maxSources : Nat) (saveToDatabase : Bool) :
    Except String RunResult × Option SessionFinal :=
  if saveToDatabase then
    match env.createSession with
    | .error e => (.error e, none)
    | .ok sess =>
      performDeepSearchWith env query useAdvancedSearch generateEmbeddings maxSources (some sess)
  else
    performDeepSearchWith env query useAdvancedSearch generateEmbeddings maxSources none

/-! ### Deduplication lemmas -/

theorem dedupAux_sublist {α : Type} (key : α → String) :
    ∀ (l : List α) (seen : List String), (dedupAux key seen l).Sublist l := by
  intro l
  induction l with
  | nil => intro seen; simp [dedupAux]
  | cons x t ih =>
    intro seen
    by_cases h : seen.contains (key x)
    · simp only [dedupAux, h, if_pos]
      exact (ih seen).trans (List.sublist_cons_self x t)
    · simp only [dedupAux, h, if_neg, Bool.false_eq_true, not_false_iff]
      exact (ih (key x :: seen)).cons₂ x

theorem dedupAux_not_seen {α : Type} (key : α → String) :
    ∀ (l : List α) (seen : List String) (x : α), x ∈ dedupAux key seen l →
      seen.contains (key x) = false := by
  intro l
  induction l with
  | nil => intro seen x hx; simp [dedupAux] at hx
  | cons y t ih =>
    intro seen x hx
    by_cases h : seen.contains (key y)
    · rw [dedupAux, if_pos h] at hx
      exact ih seen x hx
    · rw [dedupAux, if_neg h] at hx
      rcases List.mem_cons.mp hx with rfl | hx
      · simpa using h
      · have h2 := ih (key y :: seen) x hx
        simp only [List.contains_cons, Bool.or_eq_false_iff] at h2
        exact h2.2

theorem dedupAux_map_key_nodup {α : Type} (key : α → String) :
    ∀ (l : List α) (seen : List String), ((dedupAux key seen l).map key).Nodup := by
  intro l
  induction l with
  | nil => intro seen; simp [dedupAux]
  | cons y t ih =>
    intro seen
    by_cases h : seen.contains (key y)
    · rw [dedupAux, if_pos h]; exact ih seen
    · rw [dedupAux, if_neg h]
      simp only [List.map_cons, List.nodup_cons]
      refine ⟨?_, ih (key y :: seen)⟩
      intro hmem
      rcases List.mem_map.mp hmem with ⟨x, hx, hkx⟩
      have h2 := dedupAux_not_seen key t (key y :: seen) x hx
      simp only [List.contains_cons, Bool.or_eq_false_iff] at h2
      rw [hkx] at h2
      simpa using h2.1

theorem dedupAux_find? {α : Type} (key : α → String) :
    ∀ (l : List α) (seen : List String) (u : String), seen.contains u = false →
      (dedupAux key seen l).find? (fun x => key x == u) = l.find? (fun x => key x == u) := by
  intro l
  induction l with
  | nil => intro seen u _; simp [dedupAux]
  | cons y t ih =>
    intro seen u hu
    by_cases h : seen.contains (key y)
    · rw [dedupAux, if_pos h]
      have hne : (key y == u) = false := by
        by_contra hc
        simp only [Bool.not_eq_false, beq_iff_eq] at hc
        rw [hc] at h
        rw [h] at hu
        simp at hu
      rw [List.find?_cons, hne]
      exact ih seen u hu
    · rw [dedupAux, if_neg h]
      by_cases he : key y == u
      · rw [List.find?_cons, he, List.find?_cons, he]
      · have he' : (key y == u) = false := by simpa using he
        rw [List.find?_cons, he', List.find?_cons, he']
        refine ih (key y :: seen) u ?_
        simp only [List.contains_cons, Bool.or_eq_false_iff]
        constructor
        · simp only [beq_eq_false_iff_ne, ne_eq]
          intro hc
          rw [hc] at he'
          simp at he'
        · exact hu

theorem dedupAux_append {α : Type} (key : α → String) :
    ∀ (a b : List α) (seen : List String),
      dedupAux key seen (a ++ b) =
        dedupAux key seen a ++ dedupAux key (seenAfter key seen a) b := by
  intro a
  induction a with
  | nil => intro b seen; simp [dedupAux, seenAfter]
  | cons x t ih =>
    intro b seen
    by_cases h : seen.contains (key x)
    · simp only [List.cons_append, dedupAux, seenAfter, h, if_pos]
      exact ih b seen
    · simp only [List.cons_append, dedupAux, seenAfter, h, Bool.false_eq_true, not_false_iff,
        if_neg, List.cons_append, List.append_eq]
      rw [ih b (key x :: seen)]

/-- The untagged-to-tagged raw stream of `multiSearch`: every hit of every
term's provider call, tagged with its term, before any deduplication. -/
def rawMultiStream (env : Env) (maxResults : Nat) (terms : List String) : List SearchHit :=
  terms.flatMap fun t =>
    (searchDuckDuckGo env t maxResults).1.map fun r => { r with searchTerm := some t }

theorem addUnique_fst (seen : List String) :
    ∀ l : List SearchHit, (addUnique seen l).1 = dedupAux (·.url) seen l := by
  intro l
  induction l generalizing seen with
  | nil => simp [addUnique, dedupAux]
  | cons x t ih =>
    by_cases h : seen.contains x.url
    · simp only [addUnique, dedupAux, h, if_pos]
      exact ih seen
    · simp only [addUnique, dedupAux, h, Bool.false_eq_true, not_false_iff, if_neg]
      rw [← ih (x.url :: seen)]

theorem addUnique_snd (seen : List String) :
    ∀ l : List SearchHit, (addUnique seen l).2 = seenAfter (·.url) seen l := by
  intro l
  induction l generalizing seen with
  | nil => simp [addUnique, seenAfter]
  | cons x t ih =>
    by_cases h : seen.contains x.url
    · simp only [addUnique, seenAfter, h, if_pos]
      exact ih seen
    · simp only [addUnique, seenAfter, h, Bool.false_eq_true, not_false_iff, if_neg]
      rw [← ih (x.url :: seen)]

theorem multiSearchLoop_fst (env : Env) (maxResults : Nat) :
    ∀ (terms : List String) (seen : List String),
      (multiSearchLoop env maxResults seen terms).1 =
        dedupAux (·.url) seen (rawMultiStream env maxResults terms) := by
  intro terms
  induction terms with
  | nil => intro seen; simp [multiSearchLoop, rawMultiStream, dedupAux]
  | cons t ts ih =>
    intro seen
    simp only [multiSearchLoop, rawMultiStream, List.flatMap_cons]
    rw [dedupAux_append]
    rw [addUnique_fst, addUnique_snd]
    rw [ih]
    rfl

theorem multiSearchLoop_calls (env : Env) (maxResults : Nat) :
    ∀ (terms : List String) (seen : List String),
      (multiSearchLoop env maxResults seen terms).2 =
        terms.map fun t => { query := t, maxResults := maxResults } := by
  intro terms
  induction terms with
  | nil => intro seen; simp [multiSearchLoop]
  | cons t ts ih =>
    intro seen
    simp only [multiSearchLoop, searchDuckDuckGo, List.map_cons]
    rw [ih]
    rfl

/-- The raw stream of `searchWithDorks` before its final deduplication. -/
def rawDorkStream (env : Env) (perDork : Nat) (baseQuery : String) : List SearchHit :=
  (dorkList baseQuery).flatMap fun d =>
    (searchDuckDuckGo env d perDork).1.map fun r =>
      { r with dork := some d, searchTerm := some baseQuery }

theorem dorkLoop_fst (env : Env) (perDork : Nat) (baseQuery : String) :
    ∀ ds : List String,
      (dorkLoop env perDork baseQuery ds).1 =
        ds.flatMap fun d =>
          (searchDuckDuckGo env d perDork).1.map fun r =>
            { r with dork := some d, searchTerm := some baseQuery } := by
  intro ds
  induction ds with
  | nil => simp [dorkLoop]
  | cons d rest ih =>
    simp only [dorkLoop, List.flatMap_cons]
    rw [ih]

theorem dorkLoop_calls (env : Env) (perDork : Nat) (baseQuery : String) :
    ∀ ds : List String,
      (dorkLoop env perDork baseQuery ds).2 =
        ds.map fun d => { query := d, maxResults := perDork } := by
  intro ds
  induction ds with
  | nil => simp [dorkLoop]
  | cons d rest ih =>
    simp only [dorkLoop, searchDuckDuckGo, List.map_cons]
    rw [ih]
    rfl

theorem searchWithDorks_fst (env : Env) (baseQuery : String) (optMax : Nat) :
    (searchWithDorks env baseQuery optMax).1 =
      dedupByKey (·.url)
        (rawDorkStream env (jsCeilDiv env.cfgMaxResults 7) baseQuery) := by
  simp only [searchWithDorks, rawDorkStream]
  rw [dorkLoop_fst]
  rfl

/-! ### Concrete environments for witnesses and counterexamples -/

/-- A minimal fully concrete environment: every network collaborator is
offline except session creation and report synthesis. -/
def envTriv : Env :=
  { provider := fun _ _ => .error "offline",
    normUrl := id,
    urlHost := fun _ => some "example.com",
    fetch := fun _ => .error "offline",
    blockedDomains := [],
    allowedDomains := ["*"],
    cfgMaxResults := 50,
    maxConcurrentScrapes := 5,
    maxContentLength := 50000,
    parallelProcessingLimit := 5,
    md5 := id,
    termsResponse := fun _ => .error "offline",
    termsParse := fun _ => none,
    analyzeResponse := fun _ _ => .error "offline",
    analysisParse := fun _ => none,
    embed := fun _ => .error "offline",
    cacheLookup := fun _ => none,
    reportResponse := fun _ => .ok "relatorio",
    createSession := .ok { id := 1 },
    nowIso := "2025-10-11T12:30:00.000Z",
    stripAccents := id }

/-- An environment whose provider returns the same single organic result
(URL `u`) for every query. -/
def envOneHit : Env :=
  { envTriv with
    provider := fun _ _ => .ok [{ title := "t", href := some "u", snippet := "s" }] }

/-! ### Claim C1 -/

/-- C1 (counterexample): with advanced search on and a URL returned both
for a dork query on the first term and for the plain query on the second
term, the merged hit list handed to scraping contains that URL twice —
deduplication does *not* hold across the dork-variant calls and the
ordinary multi-term calls of one run. -/
theorem c1_counterexample :
    ((performWebSearchHits envOneHit ["x", "y"] 10 true).1.map (fun h => h.url) = ["u", "u"])
    ∧ ¬ (((performWebSearchHits envOneHit ["x", "y"] 10 true).1.map (fun h => h.url)).Nodup) := by
  constructor
  · rfl
  · decide

/-- C1 (amended): deduplication by normalized URL with first-occurrence
preference holds *within* each retrieval phase separately — within the
dork-variant phase of `searchWithDorks` and within the multi-term phase of
`multiSearch` — and across the whole merged list when advanced search is
off (a single `multiSearch` covers the run).  Each phase's output is the
first-occurrence sweep of its own raw provider stream: its URLs are
pairwise distinct, provider order is preserved (sublist), and the hit kept
for a URL is the first hit carrying it.  With advanced search on the two
phase outputs are concatenated with no cross-phase deduplication
(see the counterexample). -/
theorem c1_dedup_within_phases (env : Env) (terms : List String)
    (maxResults optMax : Nat) (q : String) :
    ((multiSearch env terms maxResults).1 =
        dedupByKey (fun h => h.url) (rawMultiStream env maxResults terms))
    ∧ (((multiSearch env terms maxResults).1.map (fun h => h.url)).Nodup)
    ∧ (∀ u, ((multiSearch env terms maxResults).1.find? fun h => h.url == u) =
          ((rawMultiStream env maxResults terms).find? fun h => h.url == u))
    ∧ ((multiSearch env terms maxResults).1.Sublist (rawMultiStream env maxResults terms))
    ∧ ((searchWithDorks env q optMax).1 =
        dedupByKey (fun h => h.url) (rawDorkStream env (jsCeilDiv env.cfgMaxResults 7) q))
    ∧ (((searchWithDorks env q optMax).1.map (fun h => h.url)).Nodup)
    ∧ (∀ u, ((searchWithDorks env q optMax).1.find? fun h => h.url == u) =
          ((rawDorkStream env (jsCeilDiv env.cfgMaxResults 7) q).find? fun h => h.url == u))
    ∧ ((searchWithDorks env q optMax).1.Sublist
        (rawDorkStream env (jsCeilDiv env.cfgMaxResults 7) q))
    ∧ (((performWebSearchHits env terms maxResults false).1.map (fun h => h.url)).Nodup) := by
  have hm : (multiSearch env terms maxResults).1 =
      dedupByKey (fun h => h.url) (rawMultiStream env maxResults terms) :=
    multiSearchLoop_fst env maxResults terms []
  have hd := searchWithDorks_fst env q optMax
  refine ⟨hm, ?_, ?_, ?_, hd, ?_, ?_, ?_, ?_⟩
  · rw [hm]; exact dedupAux_map_key_nodup _ _ []
  · intro u
    rw [hm]
    exact dedupAux_find? _ _ [] u rfl
  · rw [hm]; exact dedupAux_sublist _ _ []
  · rw [hd]; exact dedupAux_map_key_nodup _ _ []
  · intro u
    rw [hd]
    exact dedupAux_find? _ _ [] u rfl
  · rw [hd]; exact dedupAux_sublist _ _ []
  · show (((multiSearch env terms maxResults).1.map (fun h => h.url)).Nodup)
    rw [hm]; exact dedupAux_map_key_nodup _ _ []

theorem searchWithDorks_snd (env : Env) (q : String) (m : Nat) :
    (searchWithDorks env q m).2 =
      (dorkList q).map fun d => { query := d, maxResults := jsCeilDiv env.cfgMaxResults 7 } := by
  simp only [searchWithDorks]
  rw [dorkLoop_calls]
  have h7 : (dorkList q).length = 7 := by simp [dorkList]
  rw [h7]

theorem multiSearch_snd (env : Env) (terms : List String) (m : Nat) :
    (multiSearch env terms m).2 = terms.map fun t => { query := t, maxResults := m } := by
  simp only [multiSearch]
  rw [multiSearchLoop_calls]

theorem performWebSearchHits_calls (env : Env) (t : String) (rest : List String) (maxR : Nat) :
    (performWebSearchHits env (t :: rest) maxR true).2 =
      ((dorkList t).map fun d => { query := d, maxResults := jsCeilDiv env.cfgMaxResults 7 })
        ++ (rest.map fun r => { query := r, maxResults := jsCeilDiv maxR 2 }) := by
  cases rest with
  | nil =>
    simp only [performWebSearchHits, if_true, List.headD_cons, List.tail_cons,
      List.length_nil, gt_iff_lt, Nat.lt_irrefl, if_false, List.map_nil, List.append_nil]
    rw [← searchWithDorks_snd env t (jsCeilDiv maxR 2)]
  | cons r rs =>
    simp only [performWebSearchHits, if_true, List.headD_cons, List.tail_cons,
      List.length_cons, gt_iff_lt, Nat.succ_pos, if_true]
    rw [← searchWithDorks_snd env t (jsCeilDiv maxR 2),
      ← multiSearch_snd env (r :: rs) (jsCeilDiv maxR 2)]

/-! ### Claim C2 -/

/-- C2 (counterexample): in the claimed scenario (advanced mode, run
budget `maxResults = 10`, configured service maximum 50) the seven dork
calls are each issued with budget `Math.ceil(50 / 7) = 8`, not
`Math.ceil(5 / 7) = 1` — `searchWithDorks` overrides the passed budget
with the service-configuration value — and the two remaining terms are
each searched with budget 5 rather than sharing 5. -/
theorem c2_counterexample :
    ((performWebSearchHits envTriv ["x", "y", "z"] 10 true).2.map (fun c => c.maxResults) =
      [8, 8, 8, 8, 8, 8, 8, 5, 5])
    ∧ jsCeilDiv 5 7 = 1
    ∧ (8 : Nat) ≠ 1 := by
  refine ⟨?_, rfl, by decide⟩
  rfl

/-- C2 (amended): with advanced mode on and `maxResults = 10`, exactly the
seven dork variants of the first expanded term are issued, each with a
per-call result budget of `Math.ceil(cfgMaxResults / 7)` where
`cfgMaxResults` is the *service-level configured* maximum (50 by default),
not the run budget; each remaining expanded term is then searched once
with a per-call budget of `Math.ceil(10 / 2) = 5` (the half budget is
passed to every remaining term's call, not split among them). -/
theorem c2_amended (env : Env) (t : String) (rest : List String) :
    ((performWebSearchHits env (t :: rest) 10 true).2 =
      ((dorkList t).map fun d => { query := d, maxResults := jsCeilDiv env.cfgMaxResults 7 })
        ++ (rest.map fun r => { query := r, maxResults := jsCeilDiv 10 2 }))
    ∧ (dorkList t).length = 7 :=
  ⟨performWebSearchHits_calls env t rest 10, by simp [dorkList]⟩

/-! ### Claim C3 -/

/-- The head of a `take (n+1)` is the head of the list. -/
theorem head?_take_succ {α : Type} (l : List α) (n : Nat) :
    (l.take (n + 1)).head? = l.head? := by
  cases l <;> rfl

theorem jsSetInsert_head? (acc : List String) (t q : String)
    (hacc : acc.head? = some q) : (jsSetInsert acc t).head? = some q := by
  unfold jsSetInsert
  split
  · exact hacc
  · cases acc with
    | nil => simp at hacc
    | cons a as => simpa using hacc

theorem extractSearchTermsFallback_head (q r : String) :
    (extractSearchTermsFallback q r).search_terms.head? = some q := by
  unfold extractSearchTermsFallback
  simp only
  rw [show (10 : Nat) = 9 + 1 from rfl, head?_take_succ]
  generalize quotedMatches r.toList = ms
  suffices h : ∀ (ms acc : List String), acc.head? = some q →
      (ms.foldl (fun acc m =>
        let t := jsTrim (String.mk (m.toList.filter fun c => !isQuoteChar c))
        if t.length > 2 ∧ t.length < 50 then jsSetInsert acc t else acc) acc).head? = some q by
    exact h ms [q] rfl
  intro ms
  induction ms with
  | nil => intro acc hacc; simpa using hacc
  | cons m rest ih =>
    intro acc hacc
    simp only [List.foldl_cons]
    apply ih
    by_cases hc : (jsTrim (String.mk (m.toList.filter fun c => !isQuoteChar c))).length > 2 ∧
        (jsTrim (String.mk (m.toList.filter fun c => !isQuoteChar c))).length < 50
    · simp only [hc, if_pos]
      exact jsSetInsert_head? _ _ _ hacc
    · simp only [hc, if_neg]
      exact hacc

/-- An environment whose term-expansion response is malformed (contains no
JSON block) but carries a quoted phrase. -/
def envNoJson : Env :=
  { envTriv with termsResponse := fun _ => .ok "aaa \"termo extra\" bbb" }

/-- An environment whose term-expansion response has a JSON block that does
not parse. -/
def envBadJson : Env :=
  { envTriv with termsResponse := fun _ => .ok "x\x7bbad\x7dy" }

/-- C3 (counterexample): a malformed term-expansion response without a JSON
block goes through `extractSearchTermsFallback`, which adds quoted
substrings of the response as extra search terms — the run proceeds with
`search_terms = ["x", "termo extra"]`, not with the single-element list
`["x"]` the claim states. -/
theorem c3_counterexample :
    (generateSearchTermsO envNoJson "x").search_terms = ["x", "termo extra"]
    ∧ (generateSearchTermsO envNoJson "x").search_terms ≠ ["x"] := by
  constructor
  · rfl
  · decide

/-- C3 (amended): if the term-expansion *call* fails, or its response
contains a JSON block that fails to parse, the run proceeds with exactly
`search_terms = [query]` and `categories = ["geral"]`; if the response
contains no JSON block at all, the heuristic
`extractSearchTermsFallback` is used instead — the original query is still
the first search term and the categories are still `["geral"]`, but quoted
substrings of the response (length 3–49 after stripping quotes and
trimming) are appended as extra terms.  In every such case the failure is
absorbed: with session creation and report synthesis succeeding, the run
completes, the session is marked `completed` (not `error`), and the result
carries the fallback expansion. -/
theorem c3_amended (env : Env) (q e txt j rpt : String) (sess : Session)
    (useAdv genEmb : Bool) (maxS : Nat) :
    (env.termsResponse q = .error e → generateSearchTermsO env q = fallbackTerms q)
    ∧ (env.termsResponse q = .ok txt → jsonBlock txt = some j → env.termsParse j = none →
        generateSearchTermsO env q = fallbackTerms q)
    ∧ (env.termsResponse q = .ok txt → jsonBlock txt = none →
        generateSearchTermsO env q = extractSearchTermsFallback q txt
        ∧ (extractSearchTermsFallback q txt).search_terms.head? = some q
        ∧ (extractSearchTermsFallback q txt).categories = ["geral"])
    ∧ (env.termsResponse q = .error e → env.createSession = .ok sess →
        env.reportResponse q = .ok rpt →
        ∃ res, performDeepSearch env q useAdv genEmb maxS true =
          (.ok res, some
            { id := sess.id, status := "completed",
              metadata := { sess.metadata with
                            sourcesFound := some res.webResults.sources.length,
                            reportGenerated := some true } })
          ∧ res.searchTerms = fallbackTerms q) := by
  refine ⟨?_, ?_, ?_, ?_⟩
  · intro h1
    simp [generateSearchTermsO, generateSearchTermsLLM, h1]
  · intro h1 h2 h3
    simp [generateSearchTermsO, generateSearchTermsLLM, h1, h2, h3]
  · intro h1 h2
    refine ⟨?_, extractSearchTermsFallback_head q txt, rfl⟩
    simp [generateSearchTermsO, generateSearchTermsLLM, h1, h2]
  · intro h1 h2 h3
    have hterms : generateSearchTermsO env q = fallbackTerms q := by
      simp [generateSearchTermsO, generateSearchTermsLLM, h1]
    simp only [performDeepSearch, h2]
    simp only [performDeepSearchWith, h3, hterms]
    exact ⟨_, rfl, rfl⟩

/-- C3 (witness): the amended theorem at the concrete offline environment
(term expansion errors, session creation and report synthesis succeed) and
at the concrete bad-JSON environment. -/
theorem c3_witness :
    (generateSearchTermsO envTriv "x" = fallbackTerms "x")
    ∧ (generateSearchTermsO envBadJson "x" = fallbackTerms "x")
    ∧ (∃ res, performDeepSearch envTriv "x" false false 3 true =
        (.ok res, some
          { id := 1, status := "completed",
            metadata := { error := none,
                          sourcesFound := some res.webResults.sources.length,
                          reportGenerated := some true } })
        ∧ res.searchTerms = fallbackTerms "x") := by
  refine ⟨?_, ?_, ?_⟩
  · exact (c3_amended envTriv "x" "offline" "" "" "relatorio" { id := 1 } false false 3).1 rfl
  · exact (c3_amended envBadJson "x" "" "x\x7bbad\x7dy" "\x7bbad\x7d" "relatorio"
      { id := 1 } false false 3).2.1 rfl rfl rfl
  · exact (c3_amended envTriv "x" "offline" "" "" "relatorio" { id := 1 } false false
      3).2.2.2 rfl rfl rfl

/-! ### Claim C4 -/

/-- C4: for a session-backed run (session creation succeeded) in which the
report-synthesis call fails with message `e`, the session is updated to
status `error` with `metadata.error` set to the propagated failure message
(`generateFinalReport` wraps it as `Erro ao gerar relatório: e`), and
`performDeepSearch` raises that error to its caller instead of returning a
result. -/
theorem c4_report_failure_marks_session_error (env : Env) (query e : String)
    (sess : Session) (useAdv genEmb : Bool) (maxS : Nat)
    (hsess : env.createSession = .ok sess)
    (hrep : env.reportResponse query = .error e) :
    performDeepSearch env query useAdv genEmb maxS true =
      (.error ("Erro ao gerar relatório: " ++ e),
       some { id := sess.id, status := "error",
              metadata := { sess.metadata with
                            error := some ("Erro ao gerar relatório: " ++ e) } }) := by
  simp only [performDeepSearch, hsess]
  simp only [performDeepSearchWith, hrep]
  simp

/-- C4 (witness): the theorem at a concrete environment whose report call
fails, evaluating the full pipeline. -/
theorem c4_witness :
    performDeepSearch { envTriv with reportResponse := fun _ => .error "timeout" }
        "x" false false 3 true =
      (.error ("Erro ao gerar relatório: " ++ "timeout"),
       some { id := 1, status := "error",
              metadata := { error := some ("Erro ao gerar relatório: " ++ "timeout"),
                            sourcesFound := none, reportGenerated := none } }) :=
  c4_report_failure_marks_session_error
    { envTriv with reportResponse := fun _ => .error "timeout" }
    "x" "timeout" { id := 1 } false false 3 rfl rfl

/-! ### Claim C5 -/

/-- C5: for a fetched page, a ScrapedSource is produced only if the
extracted content is at least 100 characters long after whitespace
normalization (`cleanContent`); when the normalized content is shorter the
scrape of that URL yields `none` — not an error.  A produced source's
`contentLength` is exactly the normalized length and its stored content is
the normalized text truncated to the configured maximum. -/
theorem c5_min_content_length (env : Env) (info : SearchHit) (page : Page)
    (hallow : isAllowedDomain env info.url = true)
    (hfetch : env.fetch info.url = .ok page) :
    ((cleanContent (extractRawContent page)).length < 100 → scrapePage env info = none)
    ∧ (∀ s, scrapePage env info = some s →
        100 ≤ (cleanContent (extractRawContent page)).length
        ∧ s.contentLength = (cleanContent (extractRawContent page)).length
        ∧ 100 ≤ s.contentLength
        ∧ s.content = jsTake (cleanContent (extractRawContent page)) env.maxContentLength) := by
  constructor
  · intro hlen
    simp [scrapePage, hallow, hfetch, hlen]
  · intro s hs
    simp only [scrapePage, hallow, Bool.true_eq_false, not_true_eq_false, if_false, hfetch,
      not_true, ite_false] at hs
    by_cases hlen : (cleanContent (extractRawContent page)).length < 100
    · rw [if_pos hlen] at hs
      exact absurd hs (by simp)
    · rw [if_neg hlen] at hs
      cases hhost : env.urlHost info.url with
      | none =>
        rw [hhost] at hs
        exact absurd hs (by simp)
      | some d =>
        rw [hhost] at hs
        have hs2 := Option.some.inj hs
        refine ⟨by omega, ?_, ?_, ?_⟩
        · rw [← hs2]
        · rw [← hs2]
          show 100 ≤ (cleanContent (extractRawContent page)).length
          omega
        · rw [← hs2]

/-- A page whose normalized content is far below 100 characters. -/
def pageShort : Page :=
  { title := "T", metaDescription := none, selectorText := fun _ => none, bodyText := "oi" }

/-- An environment that successfully fetches `pageShort` for every URL. -/
def envShortPage : Env := { envTriv with fetch := fun _ => .ok pageShort }

/-- C5 (witness): the theorem at a concrete allowed URL whose page
normalizes to 2 characters; the scrape yields `none`. -/
theorem c5_witness :
    isAllowedDomain envShortPage "http://example.com/a" = true
    ∧ (cleanContent (extractRawContent pageShort)).length < 100
    ∧ scrapePage envShortPage
        { title := "t", url := "http://example.com/a", snippet := "", source := "duckduckgo" }
        = none := by
  refine ⟨rfl, by decide, ?_⟩
  exact (c5_min_content_length envShortPage
    { title := "t", url := "http://example.com/a", snippet := "", source := "duckduckgo" }
    pageShort rfl rfl).1 (by decide)

/-! ### Claim C6 -/

theorem filter_eq_nil_of {α : Type} (p : α → Bool) (l : List α)
    (h : ∀ x ∈ l, p x = false) : l.filter p = [] := by
  induction l with
  | nil => rfl
  | cons x t ih =>
    rw [List.filter_cons, if_neg (by simp [h x (List.mem_cons_self x t)])]
    exact ih fun y hy => h y (List.mem_cons_of_mem x hy)

theorem filter_eq_self_of {α : Type} (p : α → Bool) (l : List α)
    (h : ∀ x ∈ l, p x = true) : l.filter p = l := by
  induction l with
  | nil => rfl
  | cons x t ih =>
    rw [List.filter_cons, if_pos (by simp [h x (List.mem_cons_self x t)])]
    rw [ih fun y hy => h y (List.mem_cons_of_mem x hy)]

/-- Filtering an `orderedInsert countGe` at a fixed count: the inserted
entry lands before every retained entry of its own count class (stability)
and does not disturb the others. -/
theorem orderedInsert_filter_count (a : String × Nat) (c : Nat) :
    ∀ s : List (String × Nat),
      (s.orderedInsert countGe a).filter (fun e => e.2 == c) =
        if a.2 == c then a :: s.filter (fun e => e.2 == c)
        else s.filter (fun e => e.2 == c) := by
  intro s
  induction s with
  | nil => rw [List.orderedInsert, List.filter_cons]
  | cons b t ih =>
    by_cases hr : countGe a b
    · rw [List.orderedInsert, if_pos hr, List.filter_cons]
    · rw [List.orderedInsert, if_neg hr, List.filter_cons, ih]
      have hlt : a.2 < b.2 := by
        unfold countGe at hr
        omega
      by_cases hac : a.2 = c
      · have hbc : ¬ (b.2 = c) := by omega
        simp [List.filter_cons, hac, hbc]
      · by_cases hbc : b.2 = c
        · simp [List.filter_cons, hac, hbc]
        · simp [List.filter_cons, hac, hbc]

/-- Stability of the modelled `Array.sort` comparator: filtering the sorted
entry list at any fixed count reproduces the original (first-seen) order of
that count class. -/
theorem insertionSort_filter_count (c : Nat) :
    ∀ l : List (String × Nat),
      (List.insertionSort countGe l).filter (fun e => e.2 == c) =
        l.filter (fun e => e.2 == c) := by
  intro l
  induction l with
  | nil => rfl
  | cons a t ih =>
    rw [List.insertionSort, orderedInsert_filter_count, ih, List.filter_cons]

/-- Under no-array-index items the counting object enumerates in pure
insertion order. -/
theorem jsObjectCountEntries_no_index (items : List String)
    (h : ∀ s ∈ items, isArrayIndexStr s = false) :
    jsObjectCountEntries items = (firstSeen items).map fun k => (k, items.count k) := by
  unfold jsObjectCountEntries
  have hsub : ∀ k ∈ firstSeen items, k ∈ items := by
    intro k hk
    exact (dedupAux_sublist id items []).subset hk
  have h1 : (firstSeen items).filter isArrayIndexStr = [] :=
    filter_eq_nil_of _ _ fun x hx => h x (hsub x hx)
  have h2 : ((firstSeen items).filter fun k => !isArrayIndexStr k) = firstSeen items :=
    filter_eq_self_of _ _ fun x hx => by simp [h x (hsub x hx)]
  simp only [h1, h2]
  simp [List.insertionSort]

/-- C6 (counterexample): tie-breaking does not always preserve first-seen
input order.  With items `["b", "1"]` (both occurring once), the counting
object enumerates the array-index-like key `"1"` before `"b"` — JS objects
list integer-like keys first, in numeric order — so the stable sort keeps
`"1"` first even though `"b"` was seen first. -/
theorem c6_counterexample :
    (getTopItems ["b", "1"] 10).map Prod.fst = ["1", "b"]
    ∧ firstSeen ["b", "1"] = ["b", "1"]
    ∧ (getTopItems ["b", "1"] 10).map Prod.fst ≠ firstSeen ["b", "1"] := by
  refine ⟨by decide, by decide, by decide⟩

/-- C6 (amended): `getTopItems` is a pure deterministic function: it counts
occurrences by exact string match, sorts the count entries in descending
count order with a stable sort, and keeps at most the top `limit` (10 at
every call site).  Ties preserve first-seen input order *provided no item
is an integer-like string* (the canonical decimal form of an integer up to
`2^32 - 2`): such keys are enumerated first in ascending numeric order by
the JS object used as counter.  (Items colliding with `Object.prototype`
member names would additionally corrupt the JS counter itself; the
embedding and this theorem exclude them.) -/
theorem c6_amended (items : List String) (limit : Nat)
    (hidx : ∀ s ∈ items, isArrayIndexStr s = false)
    (hproto : ∀ s ∈ items, ¬ protoNames.contains s) :
    (jsObjectCountEntries items = (firstSeen items).map fun k => (k, items.count k))
    ∧ getTopItems items limit =
        (List.insertionSort countGe
          ((firstSeen items).map fun k => (k, items.count k))).take limit
    ∧ List.Sorted countGe (List.insertionSort countGe (jsObjectCountEntries items))
    ∧ (∀ c, (List.insertionSort countGe (jsObjectCountEntries items)).filter
            (fun e => e.2 == c)
          = ((firstSeen items).map fun k => (k, items.count k)).filter (fun e => e.2 == c))
    ∧ (getTopItems items limit).length ≤ limit
    ∧ (∀ p ∈ getTopItems items limit, p.2 = items.count p.1) := by
  have hentries := jsObjectCountEntries_no_index items hidx
  refine ⟨hentries, ?_, ?_, ?_, ?_, ?_⟩
  · rw [getTopItems, hentries]
  · exact List.sorted_insertionSort countGe _
  · intro c
    rw [insertionSort_filter_count, hentries]
  · rw [getTopItems]
    calc ((List.insertionSort countGe (jsObjectCountEntries items)).take limit).length
        = min limit (List.insertionSort countGe (jsObjectCountEntries items)).length :=
          List.length_take _ _
      _ ≤ limit := Nat.min_le_left _ _
  · intro p hp
    have hp2 : p ∈ List.insertionSort countGe (jsObjectCountEntries items) :=
      (List.take_sublist _ _).subset hp
    have hp3 : p ∈ jsObjectCountEntries items := by
      rw [← List.mem_insertionSort countGe]
      exact hp2
    rw [hentries] at hp3
    rcases List.mem_map.mp hp3 with ⟨k, _, hk⟩
    rw [← hk]

/-- C6 (witness): the amended theorem at the concrete non-integer items
`["b", "a", "b"]`. -/
theorem c6_witness :
    (∀ s ∈ ["b", "a", "b"], isArrayIndexStr s = false)
    ∧ (∀ s ∈ ["b", "a", "b"], ¬ protoNames.contains s)
    ∧ jsObjectCountEntries ["b", "a", "b"] = [("b", 2), ("a", 1)]
    ∧ getTopItems ["b", "a", "b"] 10 = [("b", 2), ("a", 1)] := by
  refine ⟨by decide, by decide, ?_, by decide⟩
  exact (c6_amended ["b", "a", "b"] 10 (by decide) (by decide)).1.trans (by decide)

/-! ### Claim C7 -/

/-- C7: one `searchDuckDuckGo` call returns an empty hit list — not a
failure — on a provider transport error and on an empty result page, and in
every case returns at most `maxResults` hits. -/
theorem c7_single_search (env : Env) (q : String) (maxR : Nat) :
    (∀ e, env.provider q maxR = .error e → (searchDuckDuckGo env q maxR).1 = [])
    ∧ (env.provider q maxR = .ok [] → (searchDuckDuckGo env q maxR).1 = [])
    ∧ (searchDuckDuckGo env q maxR).1.length ≤ maxR := by
  refine ⟨?_, ?_, ?_⟩
  · intro e he
    simp [searchDuckDuckGo, he]
  · intro h
    simp [searchDuckDuckGo, h, parseDuckDuckGoResults]
  · simp only [searchDuckDuckGo]
    cases henv : env.provider q maxR with
    | error e => simp
    | ok blocks =>
      simp only [List.length_take]
      exact Nat.min_le_left _ _

/-- C7 (witness): the theorem at the offline environment. -/
theorem c7_witness :
    envTriv.provider "q" 5 = .error "offline"
    ∧ (searchDuckDuckGo envTriv "q" 5).1 = []
    ∧ (searchDuckDuckGo envTriv "q" 5).1.length ≤ 5 := by
  refine ⟨rfl, ?_, ?_⟩
  · exact (c7_single_search envTriv "q" 5).1 "offline" rfl
  · exact (c7_single_search envTriv "q" 5).2.2

/-! ### Claim C8 -/

/-- C8: in `analyzeSingleSource`, the embedding cache is consulted and an
embedding is produced only when embeddings were requested *and* the
analysis's relevance score strictly exceeds 30; when the branch runs, the
single cache lookup is at the deterministic hash (MD5 oracle) of
`title + "\n\n" + content` truncated to 8000 characters; and on a cache hit
whose stored entry carries a vector, that vector is reused with zero
embedding-model calls and no cache write. -/
theorem c8_embedding_cache (env : Env) (query : String) (source : ScrapedSource)
    (genEmb : Bool) (sid : Option Nat) :
    (¬ (genEmb = true ∧ (analyzeWebContent env source.content query).relevance_score > 30) →
      (analyzeSingleSource env query source genEmb sid).2 =
        { lookups := [], embedCalls := 0, cacheWrites := [], embeddingUsed := none })
    ∧ ((genEmb = true ∧ (analyzeWebContent env source.content query).relevance_score > 30) →
      (analyzeSingleSource env query source genEmb sid).2.lookups =
        [env.md5 (jsTake (source.title ++ "\n\n" ++ source.content) 8000)])
    ∧ (∀ entry v,
        (genEmb = true ∧ (analyzeWebContent env source.content query).relevance_score > 30) →
        env.cacheLookup (env.md5 (jsTake (source.title ++ "\n\n" ++ source.content) 8000)) =
          some entry →
        entry.embedding = some v →
        (analyzeSingleSource env query source genEmb sid).2.embedCalls = 0
        ∧ (analyzeSingleSource env query source genEmb sid).2.embeddingUsed = some v
        ∧ (analyzeSingleSource env query source genEmb sid).2.cacheWrites = []) := by
  refine ⟨?_, ?_, ?_⟩
  · intro hng
    simp only [analyzeSingleSource, if_neg hng]
  · intro hg
    simp only [analyzeSingleSource, if_pos hg]
    cases hc : env.cacheLookup (env.md5 (jsTake (source.title ++ "\n\n" ++ source.content) 8000)) with
    | none =>
      cases he : env.embed (jsTake (source.title ++ "\n\n" ++ source.content) 8000) with
      | ok p =>
        cases p with
        | mk vec model => simp [hc, he]
      | error e => simp [hc, he]
    | some cached =>
      cases hce : cached.embedding with
      | some v => simp [hc, hce]
      | none =>
        cases he : env.embed (jsTake (source.title ++ "\n\n" ++ source.content) 8000) with
        | ok p =>
          cases p with
          | mk vec model => simp [hc, hce, he]
        | error e => simp [hc, hce, he]
  · intro entry v hg hc hv
    simp only [analyzeSingleSource, if_pos hg]
    simp [hc, hv]

/-- An environment whose embedding cache holds a vector for every key. -/
def envCacheHit : Env :=
  { envTriv with
    cacheLookup := fun _ => some { embedding := some [1, 2, 3], model_used := "m" } }

/-- A concrete scraped source. -/
def sourceW : ScrapedSource :=
  { url := "u", title := "t", description := "", content := "c", domain := "d",
    searchTerm := none, wordCount := 1, contentLength := 1 }

/-- C8 (witness): the theorem at the cache-hit environment — the fallback
analysis (the analysis endpoint is offline) scores 50 > 30, so the branch
runs, looks up the MD5 of `"t\n\nc"`, reuses `[1, 2, 3]`, and makes no
embedding-model call. -/
theorem c8_witness :
    ((analyzeWebContent envCacheHit sourceW.content "q").relevance_score > 30)
    ∧ envCacheHit.cacheLookup
        (envCacheHit.md5 (jsTake (sourceW.title ++ "\n\n" ++ sourceW.content) 8000)) =
        some { embedding := some [1, 2, 3], model_used := "m" }
    ∧ (analyzeSingleSource envCacheHit "q" sourceW true none).2.lookups = ["t\n\nc"]
    ∧ (analyzeSingleSource envCacheHit "q" sourceW true none).2.embedCalls = 0
    ∧ (analyzeSingleSource envCacheHit "q" sourceW true none).2.embeddingUsed = some [1, 2, 3]
    ∧ (analyzeSingleSource envCacheHit "q" sourceW true none).2.cacheWrites = [] := by
  have h := c8_embedding_cache envCacheHit "q" sourceW true none
  have hg : (true = true ∧
      (analyzeWebContent envCacheHit sourceW.content "q").relevance_score > 30) :=
    ⟨rfl, by decide⟩
  have h3 := h.2.2 { embedding := some [1, 2, 3], model_used := "m" } [1, 2, 3] hg rfl rfl
  exact ⟨hg.2, rfl, (h.2.1 hg).trans (by decide), h3.1, h3.2.1, h3.2.2⟩

/-! ### Claim C9 -/

theorem foldl_append_eq_flatten {α β : Type} (f : List α → List β) :
    ∀ (chunks : List (List α)) (init : List β),
      chunks.foldl (fun acc c => acc ++ f c) init = init ++ (chunks.map f).flatten := by
  intro chunks
  induction chunks with
  | nil => intro init; simp
  | cons c cs ih =>
    intro init
    simp only [List.foldl_cons, List.map_cons, List.flatten_cons, ih, List.append_assoc]

theorem chunkArrayGo_flatten {α : Type} :
    ∀ (fuel : Nat) (l : List α) (n : Nat), l.length ≤ fuel → 0 < n →
      (chunkArrayGo fuel l n).flatten = l := by
  intro fuel
  induction fuel with
  | zero =>
    intro l n hl _
    cases l with
    | nil => rfl
    | cons x xs => simp at hl
  | succ fuel ih =>
    intro l n hl hn
    cases l with
    | nil => rfl
    | cons x xs =>
      cases n with
      | zero => simp at hn
      | succ n =>
        simp only [chunkArrayGo, List.flatten_cons]
        rw [ih ((x :: xs).drop (n + 1)) (n + 1) ?_ hn]
        · exact List.take_append_drop (n + 1) (x :: xs)
        · simp only [List.length_drop, List.length_cons] at hl ⊢
          omega

theorem chunkArray_flatten {α : Type} (l : List α) (n : Nat) (hn : 0 < n) :
    (chunkArray l n).flatten = l :=
  chunkArrayGo_flatten l.length l n (le_refl _) hn

theorem flatten_scrape_chunks {α β : Type} (g : α → Option β) :
    ∀ chunks : List (List α),
      ((chunks.map fun c => (c.map g).filterMap id).flatten) =
        (chunks.flatten.map g).filterMap id := by
  intro chunks
  induction chunks with
  | nil => rfl
  | cons c cs ih =>
    simp only [List.map_cons, List.flatten_cons, List.map_append, List.filterMap_append, ih]

/-- `scrapeContent` is the per-hit scrape with `null`s dropped; the chunking
only groups the concurrent fetches. -/
theorem scrapeContent_eq (env : Env) (hits : List SearchHit)
    (hn : 0 < env.maxConcurrentScrapes) :
    scrapeContent env hits = (hits.map (scrapePage env)).filterMap id := by
  unfold scrapeContent
  rw [foldl_append_eq_flatten (fun c => (c.map (scrapePage env)).filterMap id)
    (chunkArray hits env.maxConcurrentScrapes) []]
  rw [List.nil_append, flatten_scrape_chunks, chunkArray_flatten _ _ hn]

theorem filterMap_drop_unit {α β : Type} [DecidableEq α] (f : α → Option β) (x : α)
    (hx : f x = none) :
    ∀ l : List α, (l.map f).filterMap id = (((l.filter fun y => decide (y ≠ x)).map f).filterMap id) := by
  intro l
  induction l with
  | nil => rfl
  | cons y t ih =>
    by_cases hy : y = x
    · subst hy
      rw [List.map_cons, List.filterMap_cons, hx, List.filter_cons,
        if_neg (by simp)]
      exact ih
    · rw [List.map_cons, List.filterMap_cons, List.filter_cons, if_pos (by simp [hy]),
        List.map_cons, List.filterMap_cons]
      cases h : f y with
      | none => exact ih
      | some b => rw [ih]

/-- C9: a hit whose URL's host matches a configured blocked-domain pattern
(substring, or glob with `*`) is excluded before fetching: its scrape is
`none`, removing all its occurrences from the hit list leaves the scraped
sources unchanged, and therefore the aggregate stats are unchanged too —
the hit contributes to neither `sources` nor `stats`. -/
theorem c9_blocked_domain (env : Env) (hit : SearchHit) (host : String)
    (hits : List SearchHit)
    (hhost : env.urlHost hit.url = some host)
    (hblocked : (env.blockedDomains.any fun pat => matchesPattern host pat) = true)
    (hn : 0 < env.maxConcurrentScrapes) :
    scrapePage env hit = none
    ∧ scrapeContent env hits = scrapeContent env (hits.filter fun h => decide (h ≠ hit))
    ∧ getSearchStats (scrapeContent env hits) =
        getSearchStats (scrapeContent env (hits.filter fun h => decide (h ≠ hit))) := by
  have hna : isAllowedDomain env hit.url = false := by
    unfold isAllowedDomain
    rw [hhost]
    simp [hblocked]
  have h1 : scrapePage env hit = none := by
    unfold scrapePage
    rw [hna]
    simp
  have h2 : scrapeContent env hits = scrapeContent env (hits.filter fun h => decide (h ≠ hit)) := by
    rw [scrapeContent_eq env hits hn, scrapeContent_eq env _ hn]
    exact filterMap_drop_unit (scrapePage env) hit h1 hits
  exact ⟨h1, h2, congrArg getSearchStats h2⟩

/-- An environment with the blocked glob `192.168.*` whose URL parser
resolves every URL to host `192.168.0.1`. -/
def envBlocked : Env :=
  { envTriv with
    blockedDomains := ["192.168.*"],
    urlHost := fun _ => some "192.168.0.1" }

/-- A hit pointing into the blocked address range. -/
def hitBlocked : SearchHit :=
  { title := "t", url := "http://192.168.0.1/a", snippet := "", source := "duckduckgo" }

/-- C9 (witness): the theorem at the concrete blocked environment — the
blocked hit produces no ScrapedSource and the stats see zero sources. -/
theorem c9_witness :
    envBlocked.urlHost hitBlocked.url = some "192.168.0.1"
    ∧ (envBlocked.blockedDomains.any fun pat => matchesPattern "192.168.0.1" pat) = true
    ∧ scrapePage envBlocked hitBlocked = none
    ∧ scrapeContent envBlocked [hitBlocked] = []
    ∧ (getSearchStats (scrapeContent envBlocked [hitBlocked])).totalResults = 0 := by
  have h := c9_blocked_domain envBlocked hitBlocked "192.168.0.1" [hitBlocked]
    rfl (by decide) (by decide)
  refine ⟨rfl, by decide, h.1, ?_, by decide⟩
  exact h.2.1.trans (by decide)

/-! ### Claim C10 -/

theorem tier_filter_partition (l : List AnalysisRec) :
    (l.filter fun a => decide (a.analysis.relevance_score ≥ 70)).length
    + (l.filter fun a => decide (a.analysis.relevance_score ≥ 40) &&
        decide (a.analysis.relevance_score < 70)).length
    + (l.filter fun a => decide (a.analysis.relevance_score < 40)).length
    = l.length := by
  induction l with
  | nil => rfl
  | cons a t ih =>
    by_cases h1 : a.analysis.relevance_score ≥ 70
    · have h2 : ¬ (a.analysis.relevance_score < 70) := by omega
      have h3 : ¬ (a.analysis.relevance_score < 40) := by omega
      simp [List.filter_cons, h1, h2, h3] at ih ⊢
      omega
    · by_cases h2 : a.analysis.relevance_score ≥ 40
      · have h3 : a.analysis.relevance_score < 70 := by omega
        have h4 : ¬ (a.analysis.relevance_score < 40) := by omega
        simp [List.filter_cons, h1, h2, h3, h4] at ih ⊢
        omega
      · have h3 : a.analysis.relevance_score < 40 := by omega
        simp [List.filter_cons, h1, h2, h3] at ih ⊢
        omega

/-- C10: the three relevance tiers of the consolidated synthesis partition
the analysis list exactly — `high (≥ 70) + medium (40 ≤ s < 70) +
low (< 40) = totalSources` — and every analysis falls in exactly one tier.
(Scores are modelled as integers; the claim's premise that every score is a
real number is built into the model — a JS `NaN` score, which the code
would count in no tier, is not representable.) -/
theorem c10_tier_partition (q : String) (analyses : List AnalysisRec) :
    ((consolidateAnalyses q analyses).highRelevanceSources
      + (consolidateAnalyses q analyses).mediumRelevanceSources
      + (consolidateAnalyses q analyses).lowRelevanceSources
      = (consolidateAnalyses q analyses).totalSources)
    ∧ ∀ a ∈ analyses,
        ((a.analysis.relevance_score ≥ 70
            ∧ ¬ (40 ≤ a.analysis.relevance_score ∧ a.analysis.relevance_score < 70)
            ∧ ¬ (a.analysis.relevance_score < 40))
         ∨ (¬ (a.analysis.relevance_score ≥ 70)
            ∧ (40 ≤ a.analysis.relevance_score ∧ a.analysis.relevance_score < 70)
            ∧ ¬ (a.analysis.relevance_score < 40))
         ∨ (¬ (a.analysis.relevance_score ≥ 70)
            ∧ ¬ (40 ≤ a.analysis.relevance_score ∧ a.analysis.relevance_score < 70)
            ∧ a.analysis.relevance_score < 40)) := by
  constructor
  · exact tier_filter_partition analyses
  · intro a _
    omega

/-- A concrete analysis record with a given relevance score. -/
def recWithScore (s : Int) : AnalysisRec :=
  { source := sourceW,
    analysis := { relevance_score := s, key_points := [], summary := "",
                  insights := [], credibility_score := 50, topics := [] },
    embeddingPreview := none }

/-- C10 (witness): the theorem at a concrete three-element list with one
score per tier. -/
theorem c10_witness :
    ((consolidateAnalyses "q" [recWithScore 80, recWithScore 50, recWithScore 10]).highRelevanceSources
      + (consolidateAnalyses "q" [recWithScore 80, recWithScore 50, recWithScore 10]).mediumRelevanceSources
      + (consolidateAnalyses "q" [recWithScore 80, recWithScore 50, recWithScore 10]).lowRelevanceSources
      = (consolidateAnalyses "q" [recWithScore 80, recWithScore 50, recWithScore 10]).totalSources)
    ∧ (((recWithScore 80).analysis.relevance_score ≥ 70
          ∧ ¬ (40 ≤ (recWithScore 80).analysis.relevance_score
              ∧ (recWithScore 80).analysis.relevance_score < 70)
          ∧ ¬ ((recWithScore 80).analysis.relevance_score < 40))
       ∨ (¬ ((recWithScore 80).analysis.relevance_score ≥ 70)
          ∧ (40 ≤ (recWithScore 80).analysis.relevance_score
              ∧ (recWithScore 80).analysis.relevance_score < 70)
          ∧ ¬ ((recWithScore 80).analysis.relevance_score < 40))
       ∨ (¬ ((recWithScore 80).analysis.relevance_score ≥ 70)
          ∧ ¬ (40 ≤ (recWithScore 80).analysis.relevance_score
              ∧ (recWithScore 80).analysis.relevance_score < 70)
          ∧ (recWithScore 80).analysis.relevance_score < 40)) := by
  have h := c10_tier_partition "q" [recWithScore 80, recWithScore 50, recWithScore 10]
  exact ⟨h.1, h.2 (recWithScore 80) (by simp)⟩
